import Mathlib

/-!
Verification development for the fftw3-rs plan-construction core
(src/plan.rs and src/builder.rs), as a shallow embedding in Lean.

Machine integers are modelled as Nat with explicit wrap-around modulo
2 ^ 64 where the Rust code performs usize arithmetic that can overflow.
Panics are modelled as the error branch of Except String; the native
FFTW engine is modelled as an oracle from the concrete native call made
to the returned plan pointer, with 0 standing for the NULL pointer.
-/

/-- Raw machine addresses of buffers, as passed to the native engine. -/
def Addr : Type := Nat

instance : DecidableEq Addr := inferInstanceAs (DecidableEq Nat)

instance : OfNat Addr n := ⟨(n : Nat)⟩

/-- 2 ^ 64, the modulus of 64-bit usize arithmetic. -/
def USIZE : Nat := 18446744073709551616

/-- Wrapping usize subtraction a - b (Rust release-mode semantics of the
era of this code, in which integer overflow wrapped silently). -/
def usizeSub (a b : Nat) : Nat := (a % USIZE + (USIZE - b % USIZE)) % USIZE

/-- Wrapping usize multiplication. -/
def usizeMul (a b : Nat) : Nat := a * b % USIZE

/-- The value of the expression n as i32 for a usize n. -/
def castI32 (n : Nat) : Int :=
  if n % 4294967296 < 2147483648 then ((n % 4294967296 : Nat) : Int)
  else ((n % 4294967296 : Nat) : Int) - 4294967296

/-- Marker for the f64 element type of real buffers. -/
inductive F64 : Type

/-- Marker for the num crate Complex64 element type of complex buffers. -/
inductive Complex64 : Type

/-- Modelled from the spec: the alignment-aware storage of mem.rs is not
under src/. A storage buffer is a contiguous mutable region of elements
of a phantom element type, with a base address and an element count. -/
structure Buffer (α : Type) where
  addr : Addr
  len : Nat
deriving DecidableEq

/-- One axis of a detailed dimension descriptor (builder.rs struct Dim). -/
structure Dim where
  n : Nat
  in_stride : Nat
  out_stride : Nat
deriving DecidableEq

/-- builder.rs enum Dims: contiguous extents or detailed stride triples. -/
inductive Dims where
  | Contiguous : List Nat → Dims
  | Detailed : List Dim → Dims
deriving DecidableEq

namespace ffi

/-- Modelled from the spec: the ffi module is not under src/. Effort-flag
constants are opaque bit values; the numerals below are those of the
FFTW3 C API that the ffi module binds. -/
def FFTW_MEASURE : Nat := 0

/-- Modelled from the spec: see FFTW_MEASURE. -/
def FFTW_ESTIMATE : Nat := 64

/-- Modelled from the spec: see FFTW_MEASURE. -/
def FFTW_PATIENT : Nat := 32

/-- Modelled from the spec: see FFTW_MEASURE. -/
def FFTW_EXHAUSTIVE : Nat := 8

/-- Modelled from the spec: the wisdom-only restriction flag. -/
def FFTW_WISDOM_ONLY : Nat := 2097152

/-- Modelled from the spec: the forward direction constant. -/
def FFTW_FORWARD : Int := -1

/-- Modelled from the spec: the backward direction constant. -/
def FFTW_BACKWARD : Int := 1

end ffi

/-- The concrete call made into the native engine: which entry point,
with which arguments. Pointer arguments are buffer base addresses. -/
inductive NativeCall where
  | guru_dft (rank : Nat) (dims : List Dim) (howmany_rank : Nat)
      (howmany_dims : List Dim) (in_ out : Addr) (sign : Int) (flags : Nat)
  | guru_dft_r2c (rank : Nat) (dims : List Dim) (howmany_rank : Nat)
      (howmany_dims : List Dim) (in_ out : Addr) (flags : Nat)
  | guru_dft_c2r (rank : Nat) (dims : List Dim) (howmany_rank : Nat)
      (howmany_dims : List Dim) (in_ out : Addr) (flags : Nat)
  | dft_1d (n : Int) (in_ out : Addr) (sign : Int) (flags : Nat)
  | dft_r2c_1d (n : Int) (in_ out : Addr) (flags : Nat)
  | dft_c2r_1d (n : Int) (in_ out : Addr) (flags : Nat)
  | print_plan (plan : Nat)
  | execute_plan (plan : Nat)
  | destroy_plan (plan : Nat)
deriving DecidableEq

/-- The native engine as an oracle: maps the call made to the returned
fftw_plan pointer, with 0 standing for NULL (creation failure). -/
def Engine : Type := NativeCall → Nat

namespace lock

/-- Modelled from the spec: the lock module is not under src/. run
executes f while holding the single process-wide construction lock;
observed from a single thread it returns the value of f. The
serialization itself is treated in the transition-system model below. -/
def run (f : Unit → Nat) : Nat := f ()

end lock

/-- plan.rs struct RawPlan: wraps one fftw_plan pointer. -/
structure RawPlan where
  plan : Nat
deriving DecidableEq

/-- plan.rs RawPlan::new: runs f under the construction lock and panics
(modelled as the Except error branch) when the returned plan is NULL. -/
def RawPlan.new (f : Unit → Nat) : Except String RawPlan :=
  let plan := lock.run f
  if plan = 0 then
    .error ("RawPlan::new: created a NULL plan")
  else
    .ok { plan := plan }

/-- builder.rs PlanMem::plan (lines 267-280) binds the value of
RawPlan::new and matches it against None and Some. Since plan.rs gives
RawPlan::new the type returning a bare RawPlan that panics on NULL,
that match is ill-typed against plan.rs; this definition renders the
option-valued creation that the match in PlanMem::plan requires
(NULL maps to none), and is used to embed PlanMem::plan. -/
def RawPlan.tryNew (f : Unit → Nat) : Option RawPlan :=
  let plan := lock.run f
  if plan = 0 then none else some { plan := plan }

/-- plan.rs RawPlan::new_unchecked: no lock, no NULL check. -/
def RawPlan.new_unchecked (plan : Nat) : RawPlan := { plan := plan }

/-- plan.rs RawPlan::debug_print: emits the print call, state unchanged. -/
def RawPlan.debug_print (self : RawPlan) : NativeCall × RawPlan :=
  (.print_plan self.plan, self)

/-- plan.rs RawPlan::execute: emits the execute call, state unchanged. -/
def RawPlan.execute (self : RawPlan) : NativeCall × RawPlan :=
  (.execute_plan self.plan, self)

/-- plan.rs Drop for RawPlan: emits the destroy call for the wrapped plan. -/
def RawPlan.drop (self : RawPlan) : NativeCall :=
  .destroy_plan self.plan

/-- builder.rs enum Rigor. -/
inductive Rigor where
  | Estimate | Measure | Patient | Exhaustive
deriving DecidableEq

/-- builder.rs Rigor::flags. -/
def Rigor.flags : Rigor → Nat
  | .Estimate => ffi.FFTW_ESTIMATE
  | .Measure => ffi.FFTW_MEASURE
  | .Patient => ffi.FFTW_PATIENT
  | .Exhaustive => ffi.FFTW_EXHAUSTIVE

/-- builder.rs enum Direction. -/
inductive Direction where
  | Forward | Backward
deriving DecidableEq

/-- builder.rs struct Planner: the configuration. -/
structure Planner where
  rigor : Rigor
  wisdom_restriction : Bool
  direction : Direction
deriving DecidableEq

/-- builder.rs Planner::new: forward transform with estimate rigor. -/
def Planner.new : Planner :=
  { rigor := .Estimate, wisdom_restriction := false, direction := .Forward }

/-- builder.rs Planner::rigor setter. -/
def Planner.setRigor (self : Planner) (r : Rigor) : Planner :=
  { self with rigor := r }

/-- builder.rs Planner::wisdom_restriction setter. -/
def Planner.setWisdomRestriction (self : Planner) (w : Bool) : Planner :=
  { self with wisdom_restriction := w }

/-- builder.rs Planner::direction setter. -/
def Planner.setDirection (self : Planner) (d : Direction) : Planner :=
  { self with direction := d }

/-- builder.rs Planner::flags. -/
def Planner.flags (self : Planner) : Nat :=
  self.rigor.flags ||| (if self.wisdom_restriction then ffi.FFTW_WISDOM_ONLY else 0)

/-- builder.rs Planner::dir. -/
def Planner.dir (self : Planner) : Int :=
  match self.direction with
  | .Forward => ffi.FFTW_FORWARD
  | .Backward => ffi.FFTW_BACKWARD

/-- builder.rs type GuruPlanner: the transform-kind dispatch functions,
taking rank, dims, howmany rank, howmany dims, input and output
addresses, sign and flags, and producing the native call made. -/
def GuruPlanner : Type :=
  Nat → List Dim → Nat → List Dim → Addr → Addr → Int → Nat → NativeCall

/-- builder.rs free function c2c: dispatches to fftw_plan_guru64_dft,
passing the sign through. -/
def c2c : GuruPlanner :=
  fun rank dims howmany_rank howmany_dims in_ out sign flags =>
    .guru_dft rank dims howmany_rank howmany_dims in_ out sign flags

/-- builder.rs free function r2c: dispatches to fftw_plan_guru64_dft_r2c;
the sign argument is ignored. -/
def r2c : GuruPlanner :=
  fun rank dims howmany_rank howmany_dims in_ out _sign flags =>
    .guru_dft_r2c rank dims howmany_rank howmany_dims in_ out flags

/-- builder.rs free function c2r: dispatches to fftw_plan_guru64_dft_c2r;
the sign argument is ignored. -/
def c2r : GuruPlanner :=
  fun rank dims howmany_rank howmany_dims in_ out _sign flags =>
    .guru_dft_c2r rank dims howmany_rank howmany_dims in_ out flags

/-- Alias for the free dispatch function c2c, usable inside the method
Planner::c2c of the same name (definitionally equal to c2c). -/
def c2cFn : GuruPlanner := c2c

/-- Alias for the free dispatch function r2c (see c2cFn). -/
def r2cFn : GuruPlanner := r2c

/-- Alias for the free dispatch function c2r (see c2cFn). -/
def c2rFn : GuruPlanner := c2r

/-- builder.rs struct PlanMem: the bound configuration. -/
structure PlanMem (I O : Type) where
  plan : Planner
  dims : Dims
  how_many : Dims
  in_ : Buffer I
  out : Option (Buffer O)
  planner : GuruPlanner

/-- builder.rs Planner::c2c: asserts the 32-bit length limit and the
complex-to-complex length relation, then builds the bound configuration. -/
def Planner.c2c (self : Planner) (in_ : Buffer Complex64) (out : Buffer Complex64) :
    Except String (PlanMem Complex64 Complex64) :=
  if in_.len ≤ 2147483647 then
    if in_.len ≤ out.len then
      .ok { plan := self, in_ := in_, out := some out, planner := c2cFn,
            dims := .Detailed [{ n := in_.len, in_stride := 1, out_stride := 1 }],
            how_many := .Contiguous [1] }
    else .error ("assertion failed: in_.len() <= out.len()")
  else .error ("assertion failed: in_.len() <= 0x7FFFFFFF")

/-- builder.rs Planner::c2r: asserts the 32-bit length limit and the
complex-to-real length relation; the axis length 2 * (len - 1) is
computed in wrapping usize arithmetic, as the source does. -/
def Planner.c2r (self : Planner) (in_ : Buffer Complex64) (out : Buffer F64) :
    Except String (PlanMem Complex64 F64) :=
  if in_.len ≤ 2147483647 then
    if in_.len ≤ out.len / 2 + 1 then
      .ok { plan := self, in_ := in_, out := some out, planner := c2rFn,
            dims := .Detailed [{ n := usizeMul 2 (usizeSub in_.len 1),
                                 in_stride := 1, out_stride := 1 }],
            how_many := .Contiguous [1] }
    else .error ("assertion failed: in_.len() <= out.len() / 2 + 1")
  else .error ("assertion failed: in_.len() <= 0x7FFFFFFF")

/-- builder.rs Planner::r2c: asserts the 32-bit length limit and the
real-to-complex length relation. -/
def Planner.r2c (self : Planner) (in_ : Buffer F64) (out : Buffer Complex64) :
    Except String (PlanMem F64 Complex64) :=
  if in_.len ≤ 2147483647 then
    if in_.len / 2 + 1 ≤ out.len then
      .ok { plan := self, in_ := in_, out := some out, planner := r2cFn,
            dims := .Detailed [{ n := in_.len, in_stride := 1, out_stride := 1 }],
            how_many := .Contiguous [1] }
    else .error ("assertion failed: in_.len() / 2 + 1 <= out.len()")
  else .error ("assertion failed: in_.len() <= 0x7FFFFFFF")

/-- builder.rs struct InPlacePlanner. -/
structure InPlacePlanner where
  plan : Planner
deriving DecidableEq

/-- builder.rs Planner::inplace. -/
def Planner.inplace (self : Planner) : InPlacePlanner :=
  { plan := self }

/-- builder.rs InPlacePlanner::c2c: single buffer, no output supplied. -/
def InPlacePlanner.c2c (self : InPlacePlanner) (in_ : Buffer Complex64) :
    Except String (PlanMem Complex64 Complex64) :=
  if in_.len ≤ 2147483647 then
    .ok { plan := self.plan, in_ := in_, out := none, planner := c2cFn,
          dims := .Detailed [{ n := in_.len, in_stride := 1, out_stride := 1 }],
          how_many := .Contiguous [1] }
  else .error ("assertion failed: in_.len() <= 0x7FFFFFFF")

/-- builder.rs struct Planned: the finalized plan. -/
structure Planned (I O : Type) where
  mem : PlanMem I O
  plan : RawPlan

/-- The value of Result of Planned and PlanMem returned by PlanMem::plan:
ok carries the finalized plan, err carries back the bound configuration. -/
inductive PResult (I O : Type) where
  | ok : Planned I O → PResult I O
  | err : PlanMem I O → PResult I O

/-- builder.rs PlanMem::plan, input address computation. -/
def PlanMem.in_ptr (self : PlanMem I O) : Addr := self.in_.addr

/-- builder.rs PlanMem::plan, output address computation: defaults to the
input address when no output buffer was supplied (the in-place case). -/
def PlanMem.out_ptr (self : PlanMem I O) : Addr :=
  match self.out with
  | none => self.in_ptr
  | some o => o.addr

/-- builder.rs PlanMem::dimensions: diverges (unimplemented) before
assigning the contiguous descriptor. -/
def PlanMem.dimensions (self : PlanMem I O) (dims : List Nat) :
    Except String (PlanMem I O) :=
  .error ("not implemented")

/-- builder.rs PlanMem::multiples: diverges (unimplemented) before
assigning the replication count. -/
def PlanMem.multiples (self : PlanMem I O) (number : Nat) :
    Except String (PlanMem I O) :=
  .error ("not implemented")

/-- builder.rs PlanMem::plan: resolves the descriptor (the contiguous
form is unimplemented), asserts exactly one axis, and invokes
raw-plan creation through the stored dispatch function, passing the
direction sign and flags of the configuration. The None branch of the
match on the creation result returns the configuration itself. -/
def PlanMem.mkPlan (self : PlanMem I O) (engine : Engine) :
    Except String (PResult I O) :=
  match self.dims with
  | .Contiguous _ => .error ("not implemented")
  | .Detailed v =>
    if v.length = 1 then
      match RawPlan.tryNew (fun _ =>
          engine (self.planner v.length v 0 [] self.in_ptr self.out_ptr
                    self.plan.dir self.plan.flags)) with
      | none => .ok (.err self)
      | some p => .ok (.ok { mem := self, plan := p })
    else .error ("assertion failed: dims.len() == 1")

/-- plan.rs struct Plan: typed wrapper binding a raw plan to the buffers
it was created against. -/
structure Plan (In Out : Type) where
  raw : RawPlan
  in_ : In
  out : Out

/-- plan.rs Plan::take_out. -/
def Plan.take_out (self : Plan In Out) : Out := self.out

/-- plan.rs Plan::take_in. -/
def Plan.take_in (self : Plan In Out) : In := self.in_

/-- Modelled from the spec: mem.rs (FFTWVec, BackingStorage) is not under
src/. Allocation of n uninitialized elements yields a buffer of length
n; the base address is abstract and fixed to 0 here (no statement below
depends on the addresses of self-allocated buffers). -/
def FFTWVec.uninit (α : Type) (n : Nat) : Buffer α :=
  { addr := 0, len := n }

/-- The native call made by the planning closure of
plan.rs Plan::r2c_1d_prealloc: fftw_plan_dft_r2c_1d with n as i32 and
FFTW_ESTIMATE. -/
def Plan.r2c_1d_call (islice : Buffer F64) (oslice : Buffer Complex64) : NativeCall :=
  .dft_r2c_1d (castI32 islice.len) islice.addr oslice.addr ffi.FFTW_ESTIMATE

/-- plan.rs Plan::r2c_1d_prealloc: panics when the output is shorter than
n / 2 + 1, then creates the raw plan through RawPlan::new. -/
def Plan.r2c_1d_prealloc (in_ : Buffer F64) (out : Buffer Complex64) (engine : Engine) :
    Except String (Plan (Buffer F64) (Buffer Complex64)) :=
  let n := in_.len
  if out.len < n / 2 + 1 then
    .error ("Plan::r2c_prealloc: out is shorter than n / 2 + 1")
  else
    match RawPlan.new (fun _ => engine (Plan.r2c_1d_call in_ out)) with
    | .error e => .error e
    | .ok raw => .ok { raw := raw, in_ := in_, out := out }

/-- plan.rs Plan::r2c_1d: self-allocates input of length n and output of
length n / 2 + 1, then delegates to the preallocated variant. -/
def Plan.r2c_1d (n : Nat) (engine : Engine) :
    Except String (Plan (Buffer F64) (Buffer Complex64)) :=
  Plan.r2c_1d_prealloc (FFTWVec.uninit F64 n) (FFTWVec.uninit Complex64 (n / 2 + 1)) engine

/-- The native call made by the planning closure of
plan.rs Plan::c2r_1d_prealloc: fftw_plan_dft_c2r_1d with the OUTPUT
length as the logical n, and FFTW_ESTIMATE. -/
def Plan.c2r_1d_call (islice : Buffer Complex64) (oslice : Buffer F64) : NativeCall :=
  .dft_c2r_1d (castI32 oslice.len) islice.addr oslice.addr ffi.FFTW_ESTIMATE

/-- plan.rs Plan::c2r_1d_prealloc: with n the output length, panics when
the input is longer than n / 2 + 1, then creates the raw plan. -/
def Plan.c2r_1d_prealloc (in_ : Buffer Complex64) (out : Buffer F64) (engine : Engine) :
    Except String (Plan (Buffer Complex64) (Buffer F64)) :=
  let n := out.len
  if in_.len > n / 2 + 1 then
    .error ("Plan::r2c_prealloc: in_ is longer than n / 2 + 1")
  else
    match RawPlan.new (fun _ => engine (Plan.c2r_1d_call in_ out)) with
    | .error e => .error e
    | .ok raw => .ok { raw := raw, in_ := in_, out := out }

/-- plan.rs Plan::c2r_1d: self-allocates input of length n / 2 + 1 and
output of length n. -/
def Plan.c2r_1d (n : Nat) (engine : Engine) :
    Except String (Plan (Buffer Complex64) (Buffer F64)) :=
  Plan.c2r_1d_prealloc (FFTWVec.uninit Complex64 (n / 2 + 1)) (FFTWVec.uninit F64 n) engine

/-- The native call made by the planning closure of
plan.rs Plan::c2c_1d_prealloc: fftw_plan_dft_1d with FFTW_FORWARD and
FFTW_ESTIMATE. -/
def Plan.c2c_1d_call (islice : Buffer Complex64) (oslice : Buffer Complex64) : NativeCall :=
  .dft_1d (castI32 islice.len) islice.addr oslice.addr ffi.FFTW_FORWARD ffi.FFTW_ESTIMATE

/-- plan.rs Plan::c2c_1d_prealloc: panics when the output is shorter than
the input, then creates the raw plan. -/
def Plan.c2c_1d_prealloc (in_ : Buffer Complex64) (out : Buffer Complex64) (engine : Engine) :
    Except String (Plan (Buffer Complex64) (Buffer Complex64)) :=
  let n := in_.len
  if out.len < n then
    .error ("Plan::r2c_prealloc: out is shorter than n")
  else
    match RawPlan.new (fun _ => engine (Plan.c2c_1d_call in_ out)) with
    | .error e => .error e
    | .ok raw => .ok { raw := raw, in_ := in_, out := out }

/-- plan.rs Plan::c2c_1d: self-allocates input and output of length n. -/
def Plan.c2c_1d (n : Nat) (engine : Engine) :
    Except String (Plan (Buffer Complex64) (Buffer Complex64)) :=
  Plan.c2c_1d_prealloc (FFTWVec.uninit Complex64 n) (FFTWVec.uninit Complex64 n) engine

namespace LockModel

/-- Modelled from the spec: the lock module is not under src/. Activity of
one thread: idle, inside a plan-creation critical section (lock.run), or
executing a finished plan. -/
inductive Phase where
  | idle | creating | executing
deriving DecidableEq

/-- Modelled from the spec: global state of the process, with the single
process-wide construction lock (the holding thread, if any) and the
activity of every thread. -/
structure Sys where
  lock : Option Nat
  phase : Nat → Phase

/-- Initial state: lock free, every thread idle. -/
def init : Sys :=
  { lock := none, phase := fun _ => .idle }

/-- Modelled from the spec: the transition relation. Plan creation begins
only by acquiring the free construction lock and ends by releasing it;
execution of finished plans begins and ends without touching the lock. -/
inductive Step : Sys → Sys → Prop where
  | beginCreate (t : Nat) (s : Sys) :
      s.lock = none → s.phase t = .idle →
      Step s { lock := some t, phase := Function.update s.phase t .creating }
  | endCreate (t : Nat) (s : Sys) :
      s.lock = some t → s.phase t = .creating →
      Step s { lock := none, phase := Function.update s.phase t .idle }
  | beginExec (t : Nat) (s : Sys) :
      s.phase t = .idle →
      Step s { lock := s.lock, phase := Function.update s.phase t .executing }
  | endExec (t : Nat) (s : Sys) :
      s.phase t = .executing →
      Step s { lock := s.lock, phase := Function.update s.phase t .idle }

/-- States reachable from the initial state. -/
inductive Reachable : Sys → Prop where
  | init : Reachable init
  | step : ∀ {s s2 : Sys}, Reachable s → Step s s2 → Reachable s2

end LockModel

/-- The engine that always fails: returns the NULL plan for every call. -/
def nullEngine : Engine := fun _ => 0

/-- The engine that always succeeds, returning plan pointer 1. -/
def oneEngine : Engine := fun _ => 1

/-- A concrete bound configuration: the value of Planner.new.c2c on
complex buffers of length 2 at addresses 0 and 16. -/
def mDemo : PlanMem Complex64 Complex64 :=
  { plan := Planner.new,
    dims := .Detailed [{ n := 2, in_stride := 1, out_stride := 1 }],
    how_many := .Contiguous [1],
    in_ := { addr := 0, len := 2 },
    out := some { addr := 16, len := 2 },
    planner := c2cFn }

/-- A concrete in-place bound configuration: the value of
Planner.new.inplace.c2c on a complex buffer of length 3 at address 8. -/
def mInplace : PlanMem Complex64 Complex64 :=
  { plan := Planner.new,
    dims := .Detailed [{ n := 3, in_stride := 1, out_stride := 1 }],
    how_many := .Contiguous [1],
    in_ := { addr := 8, len := 3 },
    out := none,
    planner := c2cFn }

/-- The descriptor shape every publicly constructed bound configuration
has: a single-axis detailed unit-stride dimension descriptor and a
batch-size-1 contiguous replication descriptor. -/
def goodShape (m : PlanMem I O) : Prop :=
  (∃ n, m.dims = .Detailed [{ n := n, in_stride := 1, out_stride := 1 }]) ∧
  m.how_many = .Contiguous [1]

/-! ## Helper lemmas -/

/-- mDemo is indeed the configuration the public constructor builds. -/
theorem mDemo_eq_constructor :
    Planner.new.c2c { addr := 0, len := 2 } { addr := 16, len := 2 } = .ok mDemo := rfl

/-- mInplace is indeed the configuration the in-place constructor builds. -/
theorem mInplace_eq_constructor :
    Planner.new.inplace.c2c { addr := 8, len := 3 } = .ok mInplace := rfl

/-- The wrapping axis-length computation of Planner::c2r agrees with the
mathematical value 2 * (len - 1) taken modulo 2 ^ 64, and is the plain
2 * (len - 1) whenever the input is nonempty. -/
theorem usize_c2r_arith (len : Nat) (hlen : len ≤ 2147483647) :
    usizeMul 2 (usizeSub len 1) = ((2 * ((len : Int) - 1)) % ((USIZE : Nat) : Int)).toNat ∧
    (1 ≤ len → usizeMul 2 (usizeSub len 1) = 2 * (len - 1)) := by
  simp only [usizeMul, usizeSub, USIZE]
  omega

/-! ## Claim theorems -/

/-- Claim C1 (code evaluation at the failing input): RawPlan::new with a
planning closure returning the NULL plan panics with the message below,
terminating the program, rather than returning a recoverable
construction-failure value. -/
theorem rawPlan_new_null_panics :
    RawPlan.new (fun _ => 0) = .error ("RawPlan::new: created a NULL plan") := rfl

/-- Claim C2: when PlanMem::plan fails, it returns the original bound
configuration unchanged (same settings, same input buffer, same optional
output buffer); on success the configuration is consumed into the
finalized plan unchanged. -/
theorem plan_failure_returns_config (I O : Type) (m : PlanMem I O) (engine : Engine) :
    (∀ m2, m.mkPlan engine = .ok (.err m2) → m2 = m) ∧
    (∀ pl, m.mkPlan engine = .ok (.ok pl) → pl.mem = m) := by
  constructor
  · intro m2 hx
    simp only [PlanMem.mkPlan] at hx
    split at hx
    · cases hx
    · split at hx
      · split at hx
        · cases hx with | refl => rfl
        · cases hx
      · cases hx
  · intro pl hx
    simp only [PlanMem.mkPlan] at hx
    split at hx
    · cases hx
    · split at hx
      · split at hx
        · cases hx
        · cases hx with | refl => rfl
      · cases hx

/-- Witness for claim C2: a failing engine returns the concrete
configuration mDemo unchanged. -/
theorem plan_failure_returns_config_witness :
    mDemo.mkPlan nullEngine = .ok (.err mDemo) ∧ mDemo = mDemo :=
  ⟨rfl, (plan_failure_returns_config Complex64 Complex64 mDemo nullEngine).1 mDemo rfl⟩

/-- Claim C3: the out-of-place builder constructors succeed exactly under
the preconditions: input length at most 2 ^ 31 - 1, and the
kind-appropriate length relation between input and output. Violation is
the fatal (panic) branch; the constructors take no engine argument, so a
violation fails before any native engine is reached. -/
theorem out_of_place_preconditions :
    (∀ (p : Planner) (i o : Buffer Complex64),
      (∃ m, p.c2c i o = .ok m) ↔ (i.len ≤ 2 ^ 31 - 1 ∧ i.len ≤ o.len)) ∧
    (∀ (p : Planner) (i : Buffer F64) (o : Buffer Complex64),
      (∃ m, p.r2c i o = .ok m) ↔ (i.len ≤ 2 ^ 31 - 1 ∧ i.len / 2 + 1 ≤ o.len)) ∧
    (∀ (p : Planner) (i : Buffer Complex64) (o : Buffer F64),
      (∃ m, p.c2r i o = .ok m) ↔ (i.len ≤ 2 ^ 31 - 1 ∧ i.len ≤ o.len / 2 + 1)) := by
  refine ⟨?_, ?_, ?_⟩
  · intro p i o
    constructor
    · rintro ⟨m, hm⟩
      simp only [Planner.c2c] at hm
      split at hm
      · split at hm
        · refine ⟨by omega, by assumption⟩
        · cases hm
      · cases hm
    · rintro ⟨h1, h2⟩
      have h1n : i.len ≤ 2147483647 := by omega
      simp only [Planner.c2c, if_pos h1n, if_pos h2]
      exact ⟨_, rfl⟩
  · intro p i o
    constructor
    · rintro ⟨m, hm⟩
      simp only [Planner.r2c] at hm
      split at hm
      · split at hm
        · refine ⟨by omega, by assumption⟩
        · cases hm
      · cases hm
    · rintro ⟨h1, h2⟩
      have h1n : i.len ≤ 2147483647 := by omega
      simp only [Planner.r2c, if_pos h1n, if_pos h2]
      exact ⟨_, rfl⟩
  · intro p i o
    constructor
    · rintro ⟨m, hm⟩
      simp only [Planner.c2r] at hm
      split at hm
      · split at hm
        · refine ⟨by omega, by assumption⟩
        · cases hm
      · cases hm
    · rintro ⟨h1, h2⟩
      have h1n : i.len ≤ 2147483647 := by omega
      simp only [Planner.c2r, if_pos h1n, if_pos h2]
      exact ⟨_, rfl⟩

/-- Claim C7: every raw plan produced by checked construction wraps a
non-NULL native resource, and every subsequent operation (execute,
debug print, destruction) leaves that resource intact and non-NULL. -/
theorem rawplan_nonnull_invariant (f : Unit → Nat) (r : RawPlan)
    (h : RawPlan.new f = .ok r) :
    r.plan ≠ 0 ∧ r.execute.2 = r ∧ r.debug_print.2 = r ∧
    ∃ q, r.drop = .destroy_plan q ∧ q ≠ 0 := by
  have hp : r.plan ≠ 0 := by
    simp only [RawPlan.new] at h
    split at h
    · cases h
    · cases h with | refl => assumption
  exact ⟨hp, rfl, rfl, r.plan, rfl, hp⟩

/-- Witness for claim C7: construction from plan pointer 5 succeeds and
the invariant holds there. -/
theorem rawplan_nonnull_invariant_witness :
    RawPlan.new (fun _ => 5) = .ok { plan := 5 } ∧ ({ plan := 5 } : RawPlan).plan ≠ 0 :=
  ⟨rfl, (rawplan_nonnull_invariant (fun _ => 5) { plan := 5 } rfl).1⟩

/-- Claim C4: every accepted buffer pair yields a single-axis detailed
descriptor with unit strides; the axis length is the input length for
complex-to-complex and real-to-complex, and 2 * (len - 1) for
complex-to-real (taken modulo 2 ^ 64, the usize arithmetic of the
source; the plain value whenever the input is nonempty). The
replication descriptor is always the contiguous batch of size 1. -/
theorem derived_descriptor :
    (∀ (p : Planner) (i o : Buffer Complex64) (m : PlanMem Complex64 Complex64),
      p.c2c i o = .ok m →
      m.dims = .Detailed [{ n := i.len, in_stride := 1, out_stride := 1 }] ∧
      m.how_many = .Contiguous [1]) ∧
    (∀ (p : Planner) (i : Buffer F64) (o : Buffer Complex64) (m : PlanMem F64 Complex64),
      p.r2c i o = .ok m →
      m.dims = .Detailed [{ n := i.len, in_stride := 1, out_stride := 1 }] ∧
      m.how_many = .Contiguous [1]) ∧
    (∀ (p : Planner) (i : Buffer Complex64) (o : Buffer F64) (m : PlanMem Complex64 F64),
      p.c2r i o = .ok m →
      m.dims = .Detailed [{ n := ((2 * ((i.len : Int) - 1)) % ((USIZE : Nat) : Int)).toNat,
                            in_stride := 1, out_stride := 1 }] ∧
      (1 ≤ i.len →
        m.dims = .Detailed [{ n := 2 * (i.len - 1), in_stride := 1, out_stride := 1 }]) ∧
      m.how_many = .Contiguous [1]) := by
  refine ⟨?_, ?_, ?_⟩
  · intro p i o m hm
    simp only [Planner.c2c] at hm
    split at hm
    · split at hm
      · cases hm with | refl => exact ⟨rfl, rfl⟩
      · cases hm
    · cases hm
  · intro p i o m hm
    simp only [Planner.r2c] at hm
    split at hm
    · split at hm
      · cases hm with | refl => exact ⟨rfl, rfl⟩
      · cases hm
    · cases hm
  · intro p i o m hm
    simp only [Planner.c2r] at hm
    split at hm
    · split at hm
      · have harith := usize_c2r_arith i.len (by assumption)
        cases hm with | refl =>
          refine ⟨?_, ?_, rfl⟩
          · show Dims.Detailed [⟨usizeMul 2 (usizeSub i.len 1), 1, 1⟩] =
              Dims.Detailed [⟨((2 * ((i.len : Int) - 1)) % ((USIZE : Nat) : Int)).toNat, 1, 1⟩]
            rw [harith.1]
          · intro h1
            show Dims.Detailed [⟨usizeMul 2 (usizeSub i.len 1), 1, 1⟩] =
              Dims.Detailed [⟨2 * (i.len - 1), 1, 1⟩]
            rw [harith.2 h1]
      · cases hm
    · cases hm

/-- Witness for claim C4: a complex-to-real pair of lengths 3 and 8 is
accepted and produces axis length 4 = 2 * (3 - 1), matching the modular
characterization. -/
theorem derived_descriptor_witness :
    Planner.new.c2r { addr := 0, len := 3 } { addr := 64, len := 8 } =
      .ok { plan := Planner.new,
            dims := .Detailed [{ n := 4, in_stride := 1, out_stride := 1 }],
            how_many := .Contiguous [1],
            in_ := { addr := 0, len := 3 },
            out := some { addr := 64, len := 8 },
            planner := c2rFn } ∧
    (Dims.Detailed [{ n := 4, in_stride := 1, out_stride := 1 }]) =
      .Detailed [{ n := ((2 * (((3 : Nat) : Int) - 1)) % ((USIZE : Nat) : Int)).toNat,
                   in_stride := 1, out_stride := 1 }] :=
  ⟨rfl,
   (derived_descriptor.2.2 Planner.new { addr := 0, len := 3 } { addr := 64, len := 8 }
     { plan := Planner.new,
       dims := .Detailed [{ n := 4, in_stride := 1, out_stride := 1 }],
       how_many := .Contiguous [1],
       in_ := { addr := 0, len := 3 },
       out := some { addr := 64, len := 8 },
       planner := c2rFn } rfl).1⟩

/-- Claim C5: PlanMem::plan computes the output address as the input
address exactly in the in-place case (no output supplied; a supplied
output contributes its own address), rejects any detailed descriptor
whose axis count differs from one before raw-handle creation, and the
direction sign is carried only by the complex-to-complex dispatch
function: the real-to-complex and complex-to-real dispatch functions
ignore it, while the complex-to-complex one passes it through
injectively. -/
theorem plan_addresses_and_dispatch :
    (∀ (I O : Type) (m : PlanMem I O), m.out = none → m.out_ptr = m.in_ptr) ∧
    (∀ (I O : Type) (m : PlanMem I O) (o : Buffer O), m.out = some o → m.out_ptr = o.addr) ∧
    (∀ (I O : Type) (m : PlanMem I O) (v : List Dim) (engine : Engine),
      m.dims = .Detailed v → v.length ≠ 1 →
      m.mkPlan engine = .error ("assertion failed: dims.len() == 1")) ∧
    (∀ (rank : Nat) (dims : List Dim) (hr : Nat) (hd : List Dim) (i o : Addr)
      (s s2 : Int) (f : Nat), r2c rank dims hr hd i o s f = r2c rank dims hr hd i o s2 f) ∧
    (∀ (rank : Nat) (dims : List Dim) (hr : Nat) (hd : List Dim) (i o : Addr)
      (s s2 : Int) (f : Nat), c2r rank dims hr hd i o s f = c2r rank dims hr hd i o s2 f) ∧
    (∀ (rank : Nat) (dims : List Dim) (hr : Nat) (hd : List Dim) (i o : Addr)
      (s s2 : Int) (f : Nat),
      c2c rank dims hr hd i o s f = c2c rank dims hr hd i o s2 f → s = s2) := by
  refine ⟨?_, ?_, ?_, ?_, ?_, ?_⟩
  · intro I O m h
    simp [PlanMem.out_ptr, h]
  · intro I O m o h
    simp [PlanMem.out_ptr, h]
  · intro I O m v engine hdims hlen
    simp only [PlanMem.mkPlan, hdims]
    rw [if_neg hlen]
  · intro rank dims hr hd i o s s2 f
    rfl
  · intro rank dims hr hd i o s s2 f
    rfl
  · intro rank dims hr hd i o s s2 f h
    simp only [c2c, NativeCall.guru_dft.injEq] at h
    exact h.2.2.2.2.2.2.1

/-- Witness for claim C5: the concrete in-place configuration has equal
output and input addresses. -/
theorem plan_addresses_and_dispatch_witness :
    mInplace.out = none ∧ mInplace.out_ptr = mInplace.in_ptr :=
  ⟨rfl, plan_addresses_and_dispatch.1 Complex64 Complex64 mInplace rfl⟩

/-- Claim C6: the 1-D convenience constructors always plan with the flags
and sign of the default configuration (Estimate rigor, and Forward
direction for complex-to-complex); the self-allocating variants allocate
input and output of the sizes n and n / 2 + 1 appropriate to the kind
(in particular real-to-complex with input length 1 yields output length
1 = 1 / 2 + 1), and the preallocated variants fail fatally on the same
length-relation violations as the builder. -/
theorem convenience_constructors :
    (∀ (i o : Buffer Complex64),
      Plan.c2c_1d_call i o =
        .dft_1d (castI32 i.len) i.addr o.addr Planner.new.dir Planner.new.flags) ∧
    (∀ (i : Buffer F64) (o : Buffer Complex64),
      Plan.r2c_1d_call i o = .dft_r2c_1d (castI32 i.len) i.addr o.addr Planner.new.flags) ∧
    (∀ (i : Buffer Complex64) (o : Buffer F64),
      Plan.c2r_1d_call i o = .dft_c2r_1d (castI32 o.len) i.addr o.addr Planner.new.flags) ∧
    (∀ (n : Nat) (engine : Engine) (p : Plan (Buffer F64) (Buffer Complex64)),
      Plan.r2c_1d n engine = .ok p → p.in_.len = n ∧ p.out.len = n / 2 + 1) ∧
    (∀ (n : Nat) (engine : Engine) (p : Plan (Buffer Complex64) (Buffer F64)),
      Plan.c2r_1d n engine = .ok p → p.in_.len = n / 2 + 1 ∧ p.out.len = n) ∧
    (∀ (n : Nat) (engine : Engine) (p : Plan (Buffer Complex64) (Buffer Complex64)),
      Plan.c2c_1d n engine = .ok p → p.in_.len = n ∧ p.out.len = n) ∧
    (∀ (engine : Engine) (p : Plan (Buffer F64) (Buffer Complex64)),
      Plan.r2c_1d 1 engine = .ok p → p.out.len = 1) ∧
    (∀ (i : Buffer F64) (o : Buffer Complex64) (engine : Engine),
      o.len < i.len / 2 + 1 → ∃ e, Plan.r2c_1d_prealloc i o engine = .error e) ∧
    (∀ (i : Buffer Complex64) (o : Buffer F64) (engine : Engine),
      o.len / 2 + 1 < i.len → ∃ e, Plan.c2r_1d_prealloc i o engine = .error e) ∧
    (∀ (i o : Buffer Complex64) (engine : Engine),
      o.len < i.len → ∃ e, Plan.c2c_1d_prealloc i o engine = .error e) := by
  refine ⟨?_, ?_, ?_, ?_, ?_, ?_, ?_, ?_, ?_, ?_⟩
  · intro i o
    rfl
  · intro i o
    rfl
  · intro i o
    rfl
  · intro n engine p h
    simp only [Plan.r2c_1d, Plan.r2c_1d_prealloc, FFTWVec.uninit] at h
    rw [if_neg (lt_irrefl _)] at h
    split at h
    · cases h
    · cases h with | refl => exact ⟨rfl, rfl⟩
  · intro n engine p h
    simp only [Plan.c2r_1d, Plan.c2r_1d_prealloc, FFTWVec.uninit] at h
    rw [if_neg (lt_irrefl _)] at h
    split at h
    · cases h
    · cases h with | refl => exact ⟨rfl, rfl⟩
  · intro n engine p h
    simp only [Plan.c2c_1d, Plan.c2c_1d_prealloc, FFTWVec.uninit] at h
    rw [if_neg (lt_irrefl _)] at h
    split at h
    · cases h
    · cases h with | refl => exact ⟨rfl, rfl⟩
  · intro engine p h
    simp only [Plan.r2c_1d, Plan.r2c_1d_prealloc, FFTWVec.uninit] at h
    rw [if_neg (lt_irrefl _)] at h
    split at h
    · cases h
    · cases h with | refl => rfl
  · intro i o engine h
    simp only [Plan.r2c_1d_prealloc]
    rw [if_pos h]
    exact ⟨_, rfl⟩
  · intro i o engine h
    simp only [Plan.c2r_1d_prealloc]
    rw [if_pos h]
    exact ⟨_, rfl⟩
  · intro i o engine h
    simp only [Plan.c2c_1d_prealloc]
    rw [if_pos h]
    exact ⟨_, rfl⟩

/-- Witness for claim C6: real-to-complex with input length 1 produces
output length 1. -/
theorem convenience_constructors_witness :
    Plan.r2c_1d 1 oneEngine =
      .ok { raw := { plan := 1 }, in_ := { addr := 0, len := 1 },
            out := { addr := 0, len := 1 } } ∧
    ({ addr := 0, len := 1 } : Buffer Complex64).len = 1 :=
  ⟨rfl,
   convenience_constructors.2.2.2.2.2.2.1 oneEngine
     { raw := { plan := 1 }, in_ := { addr := 0, len := 1 },
       out := { addr := 0, len := 1 } } rfl⟩

/-- In every reachable state, a thread inside a plan-creation critical
section holds the process-wide construction lock. -/
theorem LockModel.creating_holds_lock {s : LockModel.Sys}
    (h : LockModel.Reachable s) :
    ∀ t, s.phase t = .creating → s.lock = some t := by
  induction h with
  | init =>
    intro t ht
    simp [LockModel.init] at ht
  | @step sPrev sNext hr hst ih =>
    cases hst with
    | beginCreate u _ hl hp =>
      intro t ht
      by_cases htu : t = u
      · subst htu
        rfl
      · have ht2 : sPrev.phase t = .creating := by
          have h4 : Function.update sPrev.phase u LockModel.Phase.creating t = .creating := ht
          rwa [Function.update_noteq htu] at h4
        have h2 := ih t ht2
        rw [hl] at h2
        simp at h2
    | endCreate u _ hl hp =>
      intro t ht
      by_cases htu : t = u
      · subst htu
        have h4 : Function.update sPrev.phase t LockModel.Phase.idle t = .creating := ht
        rw [Function.update_same] at h4
        simp at h4
      · have ht2 : sPrev.phase t = .creating := by
          have h4 : Function.update sPrev.phase u LockModel.Phase.idle t = .creating := ht
          rwa [Function.update_noteq htu] at h4
        have h2 := ih t ht2
        rw [hl] at h2
        have h3 : u = t := by
          simpa using h2
        exact absurd h3.symm htu
    | beginExec u _ hp =>
      intro t ht
      by_cases htu : t = u
      · subst htu
        have h4 : Function.update sPrev.phase t LockModel.Phase.executing t = .creating := ht
        rw [Function.update_same] at h4
        simp at h4
      · have ht2 : sPrev.phase t = .creating := by
          have h4 : Function.update sPrev.phase u LockModel.Phase.executing t = .creating := ht
          rwa [Function.update_noteq htu] at h4
        exact ih t ht2
    | endExec u _ hp =>
      intro t ht
      by_cases htu : t = u
      · subst htu
        have h4 : Function.update sPrev.phase t LockModel.Phase.idle t = .creating := ht
        rw [Function.update_same] at h4
        simp at h4
      · have ht2 : sPrev.phase t = .creating := by
          have h4 : Function.update sPrev.phase u LockModel.Phase.idle t = .creating := ht
          rwa [Function.update_noteq htu] at h4
        exact ih t ht2

/-- Claim C8: in the lock model (modelled from the spec, since the lock
module is not under src/), plan creation is mutually exclusive in every
reachable state (hence creations are totally ordered), while a
reachable state with two threads simultaneously executing finished
plans exists (execution is not serialized). -/
theorem creation_serialized_execution_not :
    (∀ s, LockModel.Reachable s → ∀ t1 t2,
      s.phase t1 = .creating → s.phase t2 = .creating → t1 = t2) ∧
    (∃ s, LockModel.Reachable s ∧ s.phase 0 = .executing ∧ s.phase 1 = .executing) := by
  constructor
  · intro s hs t1 t2 h1 h2
    have e1 := LockModel.creating_holds_lock hs t1 h1
    have e2 := LockModel.creating_holds_lock hs t2 h2
    rw [e1] at e2
    exact Option.some.inj e2
  · refine ⟨_, LockModel.Reachable.step (LockModel.Reachable.step LockModel.Reachable.init
      (LockModel.Step.beginExec 0 LockModel.init rfl))
      (LockModel.Step.beginExec 1 _ ?_), ?_, ?_⟩
    · show Function.update LockModel.init.phase 0 LockModel.Phase.executing 1 = .idle
      rw [Function.update_noteq (by decide : (1 : Nat) ≠ 0)]
      rfl
    · show Function.update (Function.update LockModel.init.phase 0 LockModel.Phase.executing)
        1 LockModel.Phase.executing 0 = .executing
      rw [Function.update_noteq (by decide : (0 : Nat) ≠ 1), Function.update_same]
    · show Function.update (Function.update LockModel.init.phase 0 LockModel.Phase.executing)
        1 LockModel.Phase.executing 1 = .executing
      rw [Function.update_same]

/-- Witness for claim C8: a state with thread 7 creating is reachable,
and mutual exclusion applied there gives 7 = 7. -/
theorem creation_serialized_execution_not_witness :
    LockModel.Reachable
      { lock := some 7,
        phase := Function.update LockModel.init.phase 7 LockModel.Phase.creating } ∧
    (7 : Nat) = 7 := by
  have hreach : LockModel.Reachable
      { lock := some 7,
        phase := Function.update LockModel.init.phase 7 LockModel.Phase.creating } :=
    LockModel.Reachable.step LockModel.Reachable.init
      (LockModel.Step.beginCreate 7 LockModel.init rfl rfl)
  refine ⟨hreach, ?_⟩
  exact creation_serialized_execution_not.1 _ hreach 7 7
    (by show Function.update LockModel.init.phase 7 LockModel.Phase.creating 7 = .creating
        rw [Function.update_same])
    (by show Function.update LockModel.init.phase 7 LockModel.Phase.creating 7 = .creating
        rw [Function.update_same])

/-- Claim C9: every bound configuration produced by a public builder
constructor has a detailed single-axis unit-stride dimension descriptor
and a batch-size-1 replication descriptor; the dimensions and multiples
override setters diverge before mutating anything, so no other shape is
reachable; and on any such configuration PlanMem::plan never reaches
its one-axis assertion failure or its contiguous-descriptor
unimplemented branch (it always returns a non-panicking result). -/
theorem reachable_configs_good :
    (∀ (p : Planner) (i o : Buffer Complex64) (m : PlanMem Complex64 Complex64),
      p.c2c i o = .ok m → goodShape m) ∧
    (∀ (p : Planner) (i : Buffer Complex64) (o : Buffer F64) (m : PlanMem Complex64 F64),
      p.c2r i o = .ok m → goodShape m) ∧
    (∀ (p : Planner) (i : Buffer F64) (o : Buffer Complex64) (m : PlanMem F64 Complex64),
      p.r2c i o = .ok m → goodShape m) ∧
    (∀ (ip : InPlacePlanner) (i : Buffer Complex64) (m : PlanMem Complex64 Complex64),
      ip.c2c i = .ok m → goodShape m) ∧
    (∀ (I O : Type) (m : PlanMem I O) (ds : List Nat),
      m.dimensions ds = .error ("not implemented")) ∧
    (∀ (I O : Type) (m : PlanMem I O) (k : Nat),
      m.multiples k = .error ("not implemented")) ∧
    (∀ (I O : Type) (m : PlanMem I O) (engine : Engine),
      goodShape m → ∃ r, m.mkPlan engine = .ok r) := by
  refine ⟨?_, ?_, ?_, ?_, ?_, ?_, ?_⟩
  · intro p i o m hm
    simp only [Planner.c2c] at hm
    split at hm
    · split at hm
      · cases hm with | refl => exact ⟨⟨i.len, rfl⟩, rfl⟩
      · cases hm
    · cases hm
  · intro p i o m hm
    simp only [Planner.c2r] at hm
    split at hm
    · split at hm
      · cases hm with | refl => exact ⟨⟨usizeMul 2 (usizeSub i.len 1), rfl⟩, rfl⟩
      · cases hm
    · cases hm
  · intro p i o m hm
    simp only [Planner.r2c] at hm
    split at hm
    · split at hm
      · cases hm with | refl => exact ⟨⟨i.len, rfl⟩, rfl⟩
      · cases hm
    · cases hm
  · intro ip i m hm
    simp only [InPlacePlanner.c2c] at hm
    split at hm
    · cases hm with | refl => exact ⟨⟨i.len, rfl⟩, rfl⟩
    · cases hm
  · intro I O m ds
    rfl
  · intro I O m k
    rfl
  · intro I O m engine hgs
    obtain ⟨⟨n, hdims⟩, -⟩ := hgs
    simp only [PlanMem.mkPlan, hdims]
    rw [if_pos (by simp)]
    split
    · exact ⟨_, rfl⟩
    · exact ⟨_, rfl⟩

/-- Witness for claim C9: the concrete constructor output mDemo has the
good shape and plans without panicking. -/
theorem reachable_configs_good_witness :
    goodShape mDemo ∧ ∃ r, mDemo.mkPlan oneEngine = .ok r :=
  ⟨⟨⟨2, rfl⟩, rfl⟩,
   reachable_configs_good.2.2.2.2.2.2 Complex64 Complex64 mDemo oneEngine ⟨⟨2, rfl⟩, rfl⟩⟩

/-- Claim C10: the complex-to-real builder constructor accepts an empty
input (its precondition does not exclude length 0); the axis-length
computation is underflow-free exactly under the extra hypothesis that
the input is nonempty, where it equals 2 * (len - 1); for length 0 the
usize subtraction wraps to 2 ^ 64 - 1 and the axis length becomes
2 ^ 64 - 2. -/
theorem c2r_empty_input_wraps :
    (∀ (p : Planner) (i : Buffer Complex64) (o : Buffer F64),
      i.len = 0 → ∃ m, p.c2r i o = .ok m) ∧
    (∀ (p : Planner) (i : Buffer Complex64) (o : Buffer F64) (m : PlanMem Complex64 F64),
      p.c2r i o = .ok m → 1 ≤ i.len →
      m.dims = .Detailed [{ n := 2 * (i.len - 1), in_stride := 1, out_stride := 1 }]) ∧
    usizeSub 0 1 = USIZE - 1 ∧
    (∀ (p : Planner) (i : Buffer Complex64) (o : Buffer F64) (m : PlanMem Complex64 F64),
      p.c2r i o = .ok m → i.len = 0 →
      m.dims = .Detailed [{ n := USIZE - 2, in_stride := 1, out_stride := 1 }]) := by
  refine ⟨?_, ?_, ?_, ?_⟩
  · intro p i o h0
    have h1 : i.len ≤ 2147483647 := by omega
    have h2 : i.len ≤ o.len / 2 + 1 := by omega
    simp only [Planner.c2r, if_pos h1, if_pos h2]
    exact ⟨_, rfl⟩
  · intro p i o m hm h1
    simp only [Planner.c2r] at hm
    split at hm
    · split at hm
      · have harith := usize_c2r_arith i.len (by assumption)
        cases hm with | refl =>
          show Dims.Detailed [⟨usizeMul 2 (usizeSub i.len 1), 1, 1⟩] =
            Dims.Detailed [⟨2 * (i.len - 1), 1, 1⟩]
          rw [harith.2 h1]
      · cases hm
    · cases hm
  · simp only [usizeSub, USIZE]
  · intro p i o m hm h0
    simp only [Planner.c2r] at hm
    split at hm
    · split at hm
      · cases hm with | refl =>
          show Dims.Detailed [⟨usizeMul 2 (usizeSub i.len 1), 1, 1⟩] =
            Dims.Detailed [⟨USIZE - 2, 1, 1⟩]
          rw [h0]
          rfl
      · cases hm
    · cases hm

/-- Witness for claim C10: the empty complex input with a real output of
length 4 is accepted by the complex-to-real constructor. -/
theorem c2r_empty_input_wraps_witness :
    (({ addr := 0, len := 0 } : Buffer Complex64).len = 0) ∧
    ∃ m, Planner.new.c2r { addr := 0, len := 0 } { addr := 0, len := 4 } = .ok m :=
  ⟨rfl, c2r_empty_input_wraps.1 Planner.new { addr := 0, len := 0 } { addr := 0, len := 4 } rfl⟩

/-- Witness for claim C3: the preconditions characterization evaluated on
complex buffers of lengths 2 and 2. -/
theorem out_of_place_preconditions_witness :
    (∃ m, Planner.new.c2c { addr := 0, len := 2 } { addr := 16, len := 2 } = .ok m) ↔
      ((2 : Nat) ≤ 2 ^ 31 - 1 ∧ (2 : Nat) ≤ 2) :=
  out_of_place_preconditions.1 Planner.new { addr := 0, len := 2 } { addr := 16, len := 2 }
